import Mathlib

/-!
Shallow embedding of the session-authentication subsystem of the
JauMemory MCP server (src/src/auth/AuthManager.ts, plus the mcp_logout
tool in src/src/mcp/tools/logout.ts and the wiring in the server main
file).

The AuthManager is modelled as a pure state machine.  The mutable state
consists of the in-memory `credentials` field and the contents of the
on-disk cache file (.auth-cache/credentials.json).  Network round trips
and file-system writes are nondeterministic in the real program; each
operation therefore takes the outcome of its external calls as an
explicit parameter.  Node's cryptographic digests (SHA-256 / SHA-512)
are modelled by a fixed executable function of the input bytes; only
determinism and the output length of the digests are relied upon.
-/

/-- Bytes of a string.  The model identifies a character with its code
point; for the ASCII data handled by the auth flow this agrees with the
UTF-8 bytes Node's `hash.update` consumes. -/
def strBytes (s : String) : List Nat :=
  s.data.map Char.toNat

/-- Model of one output byte of a cryptographic digest: a fixed fold
over the input bytes, seeded per position.  Stands in for the
corresponding byte of a real SHA-2 digest; nothing below depends on any
property of it beyond determinism. -/
def digestByte (seed : Nat) (input : List Nat) : Nat :=
  input.foldl (fun a b => (a * 131 + b + 17) % 256) (seed % 256)

/-- Model of Node `createHash('sha512').digest()`: a 64-byte digest. -/
def sha512Bytes (input : List Nat) : List Nat :=
  (List.range 64).map (fun i => digestByte i input)

/-- Model of Node `createHash('sha256').digest()`: a 32-byte digest. -/
def sha256Bytes (input : List Nat) : List Nat :=
  (List.range 32).map (fun i => digestByte (i + 101) input)

/-- Lower-case hex digit of a value below 16. -/
def hexDigit (n : Nat) : Char :=
  if n < 10 then Char.ofNat (48 + n) else Char.ofNat (87 + n)

/-- Hex encoding of a byte list, as `digest('hex')` produces. -/
def bytesToHex (bs : List Nat) : String :=
  String.mk (bs.foldr (fun b acc => hexDigit (b / 16 % 16) :: hexDigit (b % 16) :: acc) [])

/-- Model of `createHash('sha512')...digest('hex')` over a string. -/
def sha512Hex (s : String) : String :=
  bytesToHex (sha512Bytes (strBytes s))

/-- Model of `createHash('sha256')...digest('hex')` over a string. -/
def sha256Hex (s : String) : String :=
  bytesToHex (sha256Bytes (strBytes s))

/-- The `AuthCredentials` record of AuthManager.ts.  Fields are wrapped
in `Option` because a JavaScript object field can be absent
(`undefined`); the spec's Credential names `bearerToken` = `jwtToken`,
`bearerExpiry` = `jwtExpiry`, and `renewalMaterial` = the
(`requestId`, `authToken`) pair. -/
structure AuthCredentials where
  requestId : Option String
  authToken : Option String
  userId : Option String
  jwtToken : Option String
  jwtExpiry : Option Int
  refreshToken : Option String
  syncId : Option String
deriving Repr, DecidableEq

/-- Contents of the cache file `.auth-cache/credentials.json` when it
exists: either JSON that parses to a credentials record, or content
`JSON.parse` rejects. -/
inductive DiskData
  | json (c : AuthCredentials)
  | unreadable
deriving Repr, DecidableEq

/-- The mutable state of an AuthManager instance: the in-memory
`credentials` field and the cache file (absent when `disk = none`). -/
structure AuthState where
  credentials : Option AuthCredentials
  disk : Option DiskData
deriving Repr, DecidableEq

/-- Errors thrown by the modelled operations (each corresponds to a
`throw new Error(...)` site in the source). -/
inductive AuthError
  | notAuthenticated
  | noCredentials
  | securityVerificationFailed
  | exchangeFailed
  | refreshFailed
  | approvalTimeout
  | noActiveSession
  | logoutRequestFailed
deriving Repr, DecidableEq

/-- Outcome of the `POST /v1/auth/mcp/authenticate` exchange: the
server's `access_token`, `expires_in` and `user_id`, or a failure. -/
inductive ExchangeOutcome
  | ok (accessToken : String) (expiresIn : Int) (userId : String)
  | err
deriving Repr, DecidableEq

/-- Outcome of the `mkdir` + `writeFile` pair in
`saveCachedCredentials`. -/
inductive FsWrite
  | ok
  | fail
deriving Repr, DecidableEq

/-- Outcome of the `POST /v1/auth/logout` call made by the logout
tool. -/
inductive NetOutcome
  | ok
  | err
deriving Repr, DecidableEq

/-- JavaScript template-literal coercion of a possibly-absent string:
an absent value prints as "undefined". -/
def jsTemplate : Option String → String
  | some s => s
  | none => "undefined"

/-- JavaScript truthiness of a possibly-absent string: `undefined` and
the empty string are falsy. -/
def jsTruthyOpt : Option String → Bool
  | none => false
  | some s => s ≠ ""

/-- The credentials record assembled in `authenticateWithToken` from
the exchange response: every field is populated, `syncId` is
SHA-256(requestId + authToken) in hex, `jwtExpiry` is
`Date.now() + expires_in * 1000`, and `refreshToken` is not set. -/
def buildCredentials (requestId authToken accessToken : String)
    (expiresIn : Int) (userId : String) (now : Int) : AuthCredentials :=
  { requestId := some requestId
    authToken := some authToken
    userId := some userId
    jwtToken := some accessToken
    jwtExpiry := some (now + expiresIn * 1000)
    refreshToken := none
    syncId := some (sha256Hex (requestId ++ authToken)) }

/-- Model of `saveCachedCredentials`: no-op when there are no
credentials; on a write failure the error is logged and swallowed, so
the function never throws and the disk is unchanged. -/
def saveCachedCredentials (s : AuthState) (w : FsWrite) : AuthState :=
  match s.credentials with
  | none => s
  | some c =>
    match w with
    | .ok => { s with disk := some (.json c) }
    | .fail => s

/-- Model of `authenticateWithToken`: on a successful exchange the
full credentials record is assembled, stored in memory and passed to
`saveCachedCredentials`; on failure an error is thrown with the state
untouched (the assignment to `this.credentials` is only reached on
success). -/
def authenticateWithToken (s : AuthState) (requestId authToken : String)
    (resp : ExchangeOutcome) (w : FsWrite) (now : Int) :
    Option AuthError × AuthState :=
  match resp with
  | .err => (some .exchangeFailed, s)
  | .ok accessToken expiresIn userId =>
    let c := buildCredentials requestId authToken accessToken expiresIn userId now
    (none, saveCachedCredentials { s with credentials := some c } w)

/-- Model of the public `completeAuthentication` wrapper. -/
def completeAuthentication (s : AuthState) (requestId authToken : String)
    (resp : ExchangeOutcome) (w : FsWrite) (now : Int) :
    Option AuthError × AuthState :=
  authenticateWithToken s requestId authToken resp w now

/-- Model of `refreshToken`: throws when no credentials are stored;
otherwise re-runs `authenticateWithToken` with the retained
`requestId` and `authToken`, converting any failure (including a
`TypeError` from `hash.update(undefined)` when a field is absent) into
the single refresh-failed error. -/
def refreshToken (s : AuthState) (resp : ExchangeOutcome) (w : FsWrite)
    (now : Int) : Option AuthError × AuthState :=
  match s.credentials with
  | none => (some .noCredentials, s)
  | some c =>
    match c.requestId, c.authToken with
    | some rid, some tok =>
      match authenticateWithToken s rid tok resp w now with
      | (some _, s') => (some .refreshFailed, s')
      | (none, s') => (none, s')
    | _, _ => (some .refreshFailed, s)

/-- Model of `isTokenExpired`: true when no credentials are stored;
otherwise `Date.now() >= jwtExpiry - 5 * 60 * 1000`.  An absent expiry
makes the subtraction NaN and every NaN comparison false. -/
def isTokenExpired (s : AuthState) (now : Int) : Bool :=
  match s.credentials with
  | none => true
  | some c =>
    match c.jwtExpiry with
    | some e => if now ≥ e - 5 * 60 * 1000 then true else false
    | none => false

/-- The header object returned by `getAuthHeaders`: authorization via a
template literal, plus the raw `syncId` and `userId` fields. -/
def mkHeaders (c : AuthCredentials) : List (String × Option String) :=
  [("authorization", some ("Bearer " ++ jsTemplate c.jwtToken)),
   ("x-sync-id", c.syncId),
   ("x-user-id", c.userId)]

/-- Result of a call to `getAuthHeaders`: the thrown error if any, the
state afterwards, the returned headers, and how many times a refresh
was triggered during the call. -/
structure HeadersResult where
  error : Option AuthError
  state : AuthState
  headers : Option (List (String × Option String))
  refreshes : Nat
deriving Repr, DecidableEq

/-- Model of `getAuthHeaders`: throws when not authenticated; refreshes
first when `isTokenExpired`; then returns the three headers read from
the (possibly refreshed) credentials. -/
def getAuthHeaders (s : AuthState) (now : Int) (resp : ExchangeOutcome)
    (w : FsWrite) : HeadersResult :=
  match s.credentials with
  | none => ⟨some .notAuthenticated, s, none, 0⟩
  | some c =>
    if isTokenExpired s now then
      match refreshToken s resp w now with
      | (some e, s') => ⟨some e, s', none, 1⟩
      | (none, s') => ⟨none, s', s'.credentials.map mkHeaders, 1⟩
    else
      ⟨none, s, some (mkHeaders c), 0⟩

/-- Model of `getUserId`: `this.credentials?.userId || null`, under
which both an absent and an empty `userId` yield null. -/
def getUserId (s : AuthState) : Option String :=
  match s.credentials with
  | none => none
  | some c =>
    match c.userId with
    | some u => if u = "" then none else some u
    | none => none

/-- Model of the `readFile` + `JSON.parse` pair in
`loadCachedCredentials`: a missing file or unreadable content throws
inside the try block. -/
def readCacheFile : Option DiskData → Except Unit AuthCredentials
  | some (.json c) => .ok c
  | some .unreadable => .error ()
  | none => .error ()

/-- Model of `loadCachedCredentials`: best-effort read of the cache
file; any failure is swallowed and the state is left unchanged. -/
def loadCachedCredentials (s : AuthState) : Option AuthError × AuthState :=
  match readCacheFile s.disk with
  | .ok c => (none, { s with credentials := some c })
  | .error _ => (none, s)

/-- Model of the `unlink` call in `clearSession`: `unlink` succeeds
exactly when the file exists, and fails with ENOENT otherwise. -/
def unlinkCacheFile : Option DiskData → Except Unit (Option DiskData)
  | none => .error ()
  | some _ => .ok none

/-- Model of `clearSession`: drops the in-memory credentials, then
deletes the cache file, swallowing the error when the file is already
gone. -/
def clearSession (s : AuthState) : Option AuthError × AuthState :=
  let s1 : AuthState := { s with credentials := none }
  match unlinkCacheFile s1.disk with
  | .ok d => (none, { s1 with disk := d })
  | .error _ => (none, s1)

/-- Model of the step-3 portion of `performMcpLogin`: compare the
decrypted server token with the human-supplied token; on mismatch
throw the security-verification error without touching any state, on
match run `authenticateWithToken` with the request id and the
human-supplied token. -/
def verifyAndFinalize (s : AuthState)
    (requestId decryptedAuthToken userProvidedToken : String)
    (resp : ExchangeOutcome) (w : FsWrite) (now : Int) :
    Option AuthError × AuthState :=
  if decryptedAuthToken = userProvidedToken then
    authenticateWithToken s requestId userProvidedToken resp w now
  else
    (some .securityVerificationFailed, s)

/-- Outcome of one `POST /v1/auth/mcp/check` poll: the axios call threw,
or a response with the `approved` flag and an optional
`encrypted_auth_token`. -/
inductive PollOutcome
  | fail
  | resp (approved : Bool) (encryptedAuthToken : Option String)
deriving Repr, DecidableEq

/-- Wait time before each poll, in milliseconds. -/
def pollIntervalMs : Nat := 5000

/-- The attempt budget of the polling loop in `performMcpLogin`. -/
def maxAttempts : Nat := 60

/-- The break condition of one loop iteration:
`checkResponse.data.approved && checkResponse.data.encrypted_auth_token`
(a thrown poll is caught and treated as no success). -/
def checkSuccess : PollOutcome → Option String
  | .fail => none
  | .resp approved tok => if approved && jsTruthyOpt tok then tok else none

/-- The step-2 polling loop of `performMcpLogin`, indexed by the next
attempt number and the remaining fuel.  Returns the encrypted token on
success together with the number of polls performed. -/
def pollLoopAux (responses : Nat → PollOutcome) :
    Nat → Nat → Option String × Nat
  | i, 0 => (none, i)
  | i, fuel + 1 =>
    match checkSuccess (responses i) with
    | some tok => (some tok, i + 1)
    | none => pollLoopAux responses (i + 1) fuel

/-- The whole polling loop: up to `maxAttempts` polls starting at
attempt 0, each preceded by a `pollIntervalMs` wait. -/
def pollForApproval (responses : Nat → PollOutcome) : Option String × Nat :=
  pollLoopAux responses 0 maxAttempts

/-- The loop followed by the check
`if (!approved || !encryptedAuthToken) throw ...`: either the encrypted
token with the number of polls it took, or the timeout error. -/
def awaitApproval (responses : Nat → PollOutcome) :
    Except AuthError (String × Nat) :=
  match pollForApproval responses with
  | (some tok, n) => .ok (tok, n)
  | (none, _) => .error .approvalTimeout

/-- The request fingerprint posted by `login`:
SHA-512 hex of `username:email:dateNonce:connectionName`. -/
def requestHash (username email dateNonce connectionName : String) : String :=
  sha512Hex (username ++ ":" ++ email ++ ":" ++ dateNonce ++ ":" ++ connectionName)

/-- The JSON body `login` posts to `/v1/auth/mcp/login`: exactly the
`date_nonce`, `connection_name` and `request_hash` fields. -/
def loginRequestBody (username email dateNonce connectionName : String) :
    List (String × String) :=
  [("date_nonce", dateNonce),
   ("connection_name", connectionName),
   ("request_hash", requestHash username email dateNonce connectionName)]

/-- Model of `deriveRequestKey`: SHA-512 over
`username:email:connectionName:dateNonce` (built by successive
`hash.update` calls), keeping the first 32 bytes as the AES-256 key. -/
def deriveRequestKey (username email connectionName dateNonce : String) :
    List Nat :=
  (sha512Bytes (strBytes
    (username ++ ":" ++ email ++ ":" ++ connectionName ++ ":" ++ dateNonce))).take 32

/-- Model of the `mcp_logout` tool handler (logout.ts): it first calls
`clients.auth.getAuthHeaders()` (wired to `AuthManager.getAuthHeaders`
in the server main file), throws when no headers come back, then posts
to `/v1/auth/logout` and finally calls `clearSession`; any error from
these steps is rethrown. -/
def logoutTool (s : AuthState) (now : Int) (resp : ExchangeOutcome)
    (w : FsWrite) (net : NetOutcome) : Option AuthError × AuthState :=
  let r := getAuthHeaders s now resp w
  match r.error with
  | some e => (some e, r.state)
  | none =>
    match r.headers with
    | none => (some .noActiveSession, r.state)
    | some _ =>
      match net with
      | .err => (some .logoutRequestFailed, r.state)
      | .ok => clearSession r.state

/-- One call into the subsystem, with the outcomes of its external
effects.  `login` initiates a handshake without touching the stored
credentials; `restart` models a process restart (memory lost, cache
file kept). -/
inductive AuthOp
  | load
  | login
  | completeLogin (requestId authToken : String) (resp : ExchangeOutcome)
      (w : FsWrite) (now : Int)
  | getHeaders (now : Int) (resp : ExchangeOutcome) (w : FsWrite)
  | refresh (resp : ExchangeOutcome) (w : FsWrite) (now : Int)
  | clear
  | restart

/-- State transition of one operation (errors and returned values
projected away). -/
def stepOp (s : AuthState) : AuthOp → AuthState
  | .load => (loadCachedCredentials s).2
  | .login => s
  | .completeLogin rid tok resp w now =>
      (completeAuthentication s rid tok resp w now).2
  | .getHeaders now resp w => (getAuthHeaders s now resp w).state
  | .refresh resp w now => (refreshToken s resp w now).2
  | .clear => (clearSession s).2
  | .restart => { s with credentials := none }

/-- Running a sequence of operations. -/
def runOps (s : AuthState) (ops : List AuthOp) : AuthState :=
  ops.foldl stepOp s

/-- The state of a freshly installed server: no credentials in memory,
no cache file. -/
def initialState : AuthState := ⟨none, none⟩

/-- A credentials record with every field of the spec's Credential
populated: `userId`, `bearerToken` (`jwtToken`), `bearerExpiry`
(`jwtExpiry`), `syncId` and the renewal material (`requestId`,
`authToken`). -/
def credComplete (c : AuthCredentials) : Bool :=
  c.requestId.isSome && c.authToken.isSome && c.userId.isSome &&
  c.jwtToken.isSome && c.jwtExpiry.isSome && c.syncId.isSome

/-- The all-or-nothing invariant on one side of the state. -/
def credOptComplete : Option AuthCredentials → Bool
  | none => true
  | some c => credComplete c

/-- The all-or-nothing invariant on the cache file. -/
def diskOptComplete : Option DiskData → Bool
  | none => true
  | some (.json c) => credComplete c
  | some .unreadable => false

/-- The invariant of claim C5: the in-memory credentials and the cache
file are each absent or a fully-populated record. -/
def stateInv (s : AuthState) : Bool :=
  credOptComplete s.credentials && diskOptComplete s.disk

theorem saveCachedCredentials_credentials (s : AuthState) (w : FsWrite) :
    (saveCachedCredentials s w).credentials = s.credentials := by
  rcases hc : s.credentials with _ | c <;> cases w <;>
    simp [saveCachedCredentials, hc]

theorem sha512Bytes_length (input : List Nat) :
    (sha512Bytes input).length = 64 := by
  simp [sha512Bytes]

/-- C1: for every decrypted server token and every human-supplied code,
the finalize step of `performMcpLogin` succeeds exactly when the two
strings are equal byte-for-byte (case-sensitively); on any mismatch it
throws the security-verification error and leaves the in-memory and
on-disk credentials exactly as they were. -/
theorem c1_verify_and_finalize (s : AuthState) (rid d u at' : String)
    (ei : Int) (uid : String) (w : FsWrite) (now : Int) :
    ((verifyAndFinalize s rid d u (.ok at' ei uid) w now).1 = none ↔ d = u) ∧
    (d ≠ u → verifyAndFinalize s rid d u (.ok at' ei uid) w now =
      (some .securityVerificationFailed, s)) := by
  constructor
  · constructor
    · intro h
      by_contra hne
      simp [verifyAndFinalize, hne] at h
    · intro h
      subst h
      simp [verifyAndFinalize, authenticateWithToken]
  · intro hne
    simp [verifyAndFinalize, hne]

theorem c1_verify_and_finalize_witness :
    ((verifyAndFinalize initialState "rid" "happy-star" "happy-star"
        (.ok "jwt" 3600 "uid") .ok 0).1 = none) ∧
    (verifyAndFinalize initialState "rid" "happy-star" "Happy-Star"
        (.ok "jwt" 3600 "uid") .ok 0 =
      (some .securityVerificationFailed, initialState)) :=
  ⟨(c1_verify_and_finalize initialState "rid" "happy-star" "happy-star"
      "jwt" 3600 "uid" .ok 0).1.2 rfl,
   (c1_verify_and_finalize initialState "rid" "happy-star" "Happy-Star"
      "jwt" 3600 "uid" .ok 0).2 (by decide)⟩

/-- C2: when the token exchange behind `refreshToken` fails, the caller
gets the refresh-failed error and the stored credentials are untouched
in memory and on disk, so `getUserId` answers exactly as before. -/
theorem c2_refresh_failure_keeps_credentials (s : AuthState)
    (c : AuthCredentials) (w : FsWrite) (now : Int)
    (hc : s.credentials = some c) :
    refreshToken s .err w now = (some .refreshFailed, s) ∧
    getUserId (refreshToken s .err w now).2 = getUserId s := by
  have h1 : refreshToken s .err w now = (some .refreshFailed, s) := by
    rcases hr : c.requestId with _ | rid
    · simp [refreshToken, hc, hr]
    · rcases ht : c.authToken with _ | tok
      · simp [refreshToken, hc, hr, ht]
      · simp [refreshToken, hc, hr, ht, authenticateWithToken]
  exact ⟨h1, by rw [h1]⟩

theorem c2_refresh_failure_keeps_credentials_witness :
    refreshToken ⟨some (buildCredentials "r" "t" "j" 3600 "u" 0), none⟩
        .err .ok 0 =
      (some .refreshFailed,
        ⟨some (buildCredentials "r" "t" "j" 3600 "u" 0), none⟩) :=
  (c2_refresh_failure_keeps_credentials
    ⟨some (buildCredentials "r" "t" "j" 3600 "u" 0), none⟩
    (buildCredentials "r" "t" "j" 3600 "u" 0) .ok 0 rfl).1

/-- C6: the initiation body posted by `login` carries exactly the
`date_nonce`, `connection_name` and `request_hash` fields; every value
in it is the nonce, the connection name, or the fingerprint hashed over
(username, email, nonce, connectionName); and the body depends on the
raw username and email only through that fingerprint. -/
theorem c6_login_body_fields (u e n cn : String) :
    ((loginRequestBody u e n cn).map Prod.fst =
      ["date_nonce", "connection_name", "request_hash"]) ∧
    (∀ v ∈ (loginRequestBody u e n cn).map Prod.snd,
      v = n ∨ v = cn ∨ v = requestHash u e n cn) ∧
    (∀ u' e', requestHash u' e' n cn = requestHash u e n cn →
      loginRequestBody u' e' n cn = loginRequestBody u e n cn) := by
  refine ⟨rfl, ?_, ?_⟩
  · intro v hv
    simp [loginRequestBody] at hv
    rcases hv with h | h | h
    · exact Or.inl h
    · exact Or.inr (Or.inl h)
    · exact Or.inr (Or.inr h)
  · intro u' e' h
    simp [loginRequestBody, h]

theorem c6_login_body_fields_witness :
    loginRequestBody "alice" "a@x" "2024" "conn" =
      [("date_nonce", "2024"), ("connection_name", "conn"),
       ("request_hash", requestHash "alice" "a@x" "2024" "conn")] ∧
    loginRequestBody "alice" "a@x" "2024" "conn" =
      loginRequestBody "alice" "a@x" "2024" "conn" :=
  ⟨rfl, (c6_login_body_fields "alice" "a@x" "2024" "conn").2.2 "alice" "a@x" rfl⟩

/-- C7: `deriveRequestKey` is a deterministic function of exactly the
four inputs (username, email, connectionName, dateNonce) and always
yields a key of exactly 32 bytes, the AES-256 key size, taken from the
SHA-512 digest of the colon-joined key material. -/
theorem c7_derive_request_key (u e cn n u' e' cn' n' : String)
    (hu : u = u') (he : e = e') (hcn : cn = cn') (hn : n = n') :
    deriveRequestKey u e cn n = deriveRequestKey u' e' cn' n' ∧
    (deriveRequestKey u e cn n).length = 32 := by
  subst hu
  subst he
  subst hcn
  subst hn
  refine ⟨rfl, ?_⟩
  unfold deriveRequestKey
  rw [List.length_take, sha512Bytes_length]
  decide

theorem c7_derive_request_key_witness :
    deriveRequestKey "alice" "a@x" "conn" "2024" =
      deriveRequestKey "alice" "a@x" "conn" "2024" ∧
    (deriveRequestKey "alice" "a@x" "conn" "2024").length = 32 :=
  c7_derive_request_key "alice" "a@x" "conn" "2024"
    "alice" "a@x" "conn" "2024" rfl rfl rfl rfl

/-- C9: session-store failures never propagate: `loadCachedCredentials`
never throws, a missing or unreadable cache file leaves the state
untouched (so a fresh start stays in the no-prior-session state), and a
failed `saveCachedCredentials` write inside `authenticateWithToken`
still lets the call succeed with the new credentials in memory and the
disk unchanged. -/
theorem c9_store_failures_swallowed (s : AuthState) (rid tok at' : String)
    (ei : Int) (uid : String) (now : Int)
    (hfail : s.disk = none ∨ s.disk = some .unreadable) :
    (∀ s' : AuthState, (loadCachedCredentials s').1 = none) ∧
    (loadCachedCredentials s).2 = s ∧
    (s.credentials = none → getUserId (loadCachedCredentials s).2 = none) ∧
    authenticateWithToken s rid tok (.ok at' ei uid) .fail now =
      (none,
        { s with credentials := some (buildCredentials rid tok at' ei uid now) }) := by
  have h2 : (loadCachedCredentials s).2 = s := by
    rcases hfail with h | h <;> simp [loadCachedCredentials, readCacheFile, h]
  refine ⟨?_, h2, ?_, ?_⟩
  · intro s'
    unfold loadCachedCredentials
    cases readCacheFile s'.disk <;> simp
  · intro hcred
    rw [h2]
    simp [getUserId, hcred]
  · simp [authenticateWithToken, saveCachedCredentials]

theorem c9_store_failures_swallowed_witness :
    (loadCachedCredentials initialState).2 = initialState ∧
    authenticateWithToken initialState "r" "t" (.ok "j" 3600 "u") .fail 0 =
      (none, ⟨some (buildCredentials "r" "t" "j" 3600 "u" 0), none⟩) :=
  ⟨(c9_store_failures_swallowed initialState "r" "t" "j" 3600 "u" 0
      (Or.inl rfl)).2.1,
   (c9_store_failures_swallowed initialState "r" "t" "j" 3600 "u" 0
      (Or.inl rfl)).2.2.2⟩

theorem pollLoopAux_snd_le (r : Nat → PollOutcome) :
    ∀ fuel i, (pollLoopAux r i fuel).2 ≤ i + fuel := by
  intro fuel
  induction fuel with
  | zero => intro i; simp [pollLoopAux]
  | succ k ih =>
    intro i
    rw [pollLoopAux]
    split
    · simp
    · have := ih (i + 1)
      omega

theorem pollLoopAux_ok (r : Nat → PollOutcome) :
    ∀ fuel i tok n, pollLoopAux r i fuel = (some tok, n) →
      i < n ∧ n ≤ i + fuel ∧ checkSuccess (r (n - 1)) = some tok ∧
      ∀ j, i ≤ j → j < n - 1 → checkSuccess (r j) = none := by
  intro fuel
  induction fuel with
  | zero => intro i tok n h; simp [pollLoopAux] at h
  | succ k ih =>
    intro i tok n h
    rw [pollLoopAux] at h
    split at h
    case _ t heq =>
      have hts : t = tok := by
        have := congrArg Prod.fst h
        simpa using this
      have hns : n = i + 1 := by
        have := congrArg Prod.snd h
        simpa using this.symm
      subst hts
      subst hns
      refine ⟨by omega, by omega, by simpa using heq, ?_⟩
      intro j h1 h2
      omega
    case _ heq =>
      obtain ⟨ih1, ih2, ih3, ih4⟩ := ih (i + 1) tok n h
      refine ⟨by omega, by omega, ih3, ?_⟩
      intro j h1 h2
      rcases Nat.eq_or_lt_of_le h1 with hji | hji
      · rw [← hji]; exact heq
      · exact ih4 j hji h2

theorem pollLoopAux_none (r : Nat → PollOutcome) :
    ∀ fuel i, (∀ j, i ≤ j → j < i + fuel → checkSuccess (r j) = none) →
      pollLoopAux r i fuel = (none, i + fuel) := by
  intro fuel
  induction fuel with
  | zero => intro i h; simp [pollLoopAux]
  | succ k ih =>
    intro i h
    rw [pollLoopAux]
    split
    case _ t heq =>
      rw [h i (Nat.le_refl i) (by omega)] at heq
      exact absurd heq (by simp)
    case _ heq =>
      have hrec := ih (i + 1) (fun j hj1 hj2 => h j (by omega) (by omega))
      rw [hrec]
      have : i + 1 + k = i + (k + 1) := by omega
      rw [this]

theorem pollLoopAux_reaches (r : Nat → PollOutcome) :
    ∀ fuel i k0 tok, i ≤ k0 → k0 < i + fuel →
      (∀ j, i ≤ j → j < k0 → checkSuccess (r j) = none) →
      checkSuccess (r k0) = some tok →
      pollLoopAux r i fuel = (some tok, k0 + 1) := by
  intro fuel
  induction fuel with
  | zero => intro i k0 tok h1 h2; omega
  | succ k ih =>
    intro i k0 tok hik hk0 hnone hsucc
    rw [pollLoopAux]
    split
    case _ t heq =>
      have hi : i = k0 := by
        by_contra hne
        have hni : checkSuccess (r i) = none :=
          hnone i (Nat.le_refl i) (by omega)
        rw [hni] at heq
        exact absurd heq (by simp)
      subst hi
      have := hsucc.symm.trans heq
      rw [Option.some.injEq] at this
      rw [this]
    case _ heq =>
      have hne : i ≠ k0 := by
        intro hi
        rw [hi, hsucc] at heq
        exact absurd heq (by simp)
      exact ih (i + 1) k0 tok (by omega) (by omega)
        (fun j hj1 hj2 => hnone j (by omega) hj2) hsucc

/-- Components of `checkSuccess` returning a token: the response had
the approved flag true and a non-empty encrypted token. -/
theorem checkSuccess_eq_some {p : PollOutcome} {tok : String}
    (h : checkSuccess p = some tok) :
    p = .resp true (some tok) ∧ tok ≠ "" := by
  cases p with
  | fail => simp [checkSuccess] at h
  | resp a t =>
    rw [checkSuccess] at h
    split at h
    case _ hc =>
      subst h
      rw [Bool.and_eq_true] at hc
      obtain ⟨ha, ht⟩ := hc
      subst ha
      refine ⟨rfl, ?_⟩
      simpa [jsTruthyOpt] using ht
    case _ hc => exact absurd h (by simp)

/-- C3: the approval-wait loop of `performMcpLogin` makes at most 60
polls, one per fixed 5-second interval; a thrown poll counts as no
success and the loop keeps going; it returns at the first poll whose
response carries approval with a token and never polls past it; and
when no poll in the budget succeeds it ends with the timeout error
after exactly 60 polls. -/
theorem c3_poll_loop_bounded (responses : Nat → PollOutcome) :
    ((pollForApproval responses).2 ≤ maxAttempts ∧ maxAttempts = 60 ∧
      pollIntervalMs = 5000) ∧
    checkSuccess .fail = none ∧
    (∀ tok n, awaitApproval responses = .ok (tok, n) →
      1 ≤ n ∧ n ≤ maxAttempts ∧ checkSuccess (responses (n - 1)) = some tok ∧
      ∀ j, j < n - 1 → checkSuccess (responses j) = none) ∧
    (∀ k tok, k < maxAttempts →
      (∀ j, j < k → checkSuccess (responses j) = none) →
      checkSuccess (responses k) = some tok →
      awaitApproval responses = .ok (tok, k + 1)) ∧
    ((∀ j, j < maxAttempts → checkSuccess (responses j) = none) →
      awaitApproval responses = .error .approvalTimeout ∧
      (pollForApproval responses).2 = maxAttempts) := by
  refine ⟨⟨?_, rfl, rfl⟩, rfl, ?_, ?_, ?_⟩
  · have := pollLoopAux_snd_le responses maxAttempts 0
    simpa [pollForApproval] using this
  · intro tok n h
    rcases hp : pollForApproval responses with ⟨o, m⟩
    rw [awaitApproval, hp] at h
    cases o with
    | none => simp at h
    | some t =>
      simp only [Except.ok.injEq, Prod.mk.injEq, Option.some.injEq] at h
      obtain ⟨ht, hm⟩ := h
      rw [ht, hm] at hp
      obtain ⟨h1, h2, h3, h4⟩ :=
        pollLoopAux_ok responses maxAttempts 0 tok n hp
      exact ⟨by omega, by omega, h3, fun j hj => h4 j (by omega) hj⟩
  · intro k tok hk hnone hsucc
    have := pollLoopAux_reaches responses maxAttempts 0 k tok (by omega)
      (by omega) (fun j hj1 hj2 => hnone j hj2) hsucc
    rw [awaitApproval, pollForApproval, this]
  · intro hall
    have := pollLoopAux_none responses maxAttempts 0
      (fun j hj1 hj2 => hall j (by omega))
    constructor
    · rw [awaitApproval, pollForApproval, this]
    · rw [pollForApproval, this]
      simp

theorem c3_poll_loop_bounded_witness :
    awaitApproval
      (fun i => if i = 2 then .resp true (some "code") else .fail) =
      .ok ("code", 3) :=
  (c3_poll_loop_bounded
      (fun i => if i = 2 then .resp true (some "code") else .fail)).2.2.2.1
    2 "code" (by decide) (by decide) (by decide)

/-- C10: a poll response with the approved flag but no (or an empty)
encrypted token does not stop the loop, which keeps polling and times
out if a token never arrives; a successful wait always hands the
finalize step a non-empty token that was present in the stopping
response. -/
theorem c10_approved_without_token (responses : Nat → PollOutcome) :
    checkSuccess (.resp true none) = none ∧
    ((∀ j, j < maxAttempts → responses j = .resp true none) →
      awaitApproval responses = .error .approvalTimeout) ∧
    (∀ tok n, awaitApproval responses = .ok (tok, n) →
      tok ≠ "" ∧ responses (n - 1) = .resp true (some tok)) := by
  refine ⟨rfl, ?_, ?_⟩
  · intro hall
    have hnone : ∀ j, j < maxAttempts → checkSuccess (responses j) = none := by
      intro j hj
      rw [hall j hj]
      rfl
    have := pollLoopAux_none responses maxAttempts 0
      (fun j hj1 hj2 => hnone j (by omega))
    rw [awaitApproval, pollForApproval, this]
  · intro tok n h
    rcases hp : pollForApproval responses with ⟨o, m⟩
    rw [awaitApproval, hp] at h
    cases o with
    | none => simp at h
    | some t =>
      simp only [Except.ok.injEq, Prod.mk.injEq, Option.some.injEq] at h
      obtain ⟨ht, hm⟩ := h
      rw [ht, hm] at hp
      obtain ⟨h1, h2, h3, h4⟩ :=
        pollLoopAux_ok responses maxAttempts 0 tok n hp
      obtain ⟨hresp, hne⟩ := checkSuccess_eq_some h3
      exact ⟨hne, hresp⟩

theorem c10_approved_without_token_witness :
    awaitApproval (fun _ => .resp true none) = .error .approvalTimeout :=
  (c10_approved_without_token (fun _ => .resp true none)).2.1
    (fun _ _ => rfl)

theorem getAuthHeaders_refreshes (s : AuthState) (c : AuthCredentials)
    (now : Int) (resp : ExchangeOutcome) (w : FsWrite)
    (hc : s.credentials = some c) :
    (getAuthHeaders s now resp w).refreshes =
      if isTokenExpired s now then 1 else 0 := by
  rw [getAuthHeaders, hc]
  cases he : isTokenExpired s now
  · simp [he]
  · simp only [he, if_true]
    rcases hr : refreshToken s resp w now with ⟨e, s'⟩
    cases e <;> simp

theorem getAuthHeaders_expired (s : AuthState) (c : AuthCredentials)
    (rid atk : String) (now : Int) (at' : String) (ei : Int) (uid : String)
    (w : FsWrite) (hc : s.credentials = some c)
    (hrid : c.requestId = some rid) (hatk : c.authToken = some atk)
    (he : isTokenExpired s now = true) :
    getAuthHeaders s now (.ok at' ei uid) w =
      ⟨none,
       (authenticateWithToken s rid atk (.ok at' ei uid) w now).2,
       some (mkHeaders (buildCredentials rid atk at' ei uid now)), 1⟩ := by
  have hr : refreshToken s (.ok at' ei uid) w now =
      (none, (authenticateWithToken s rid atk (.ok at' ei uid) w now).2) := by
    simp [refreshToken, hc, hrid, hatk, authenticateWithToken]
  have hcr : (authenticateWithToken s rid atk (.ok at' ei uid) w now).2.credentials =
      some (buildCredentials rid atk at' ei uid now) := by
    simp [authenticateWithToken, saveCachedCredentials_credentials]
  rw [getAuthHeaders, hc]
  simp only [he, if_true]
  rw [hr]
  simp [hcr]

theorem getAuthHeaders_fresh (s : AuthState) (c : AuthCredentials)
    (now : Int) (resp : ExchangeOutcome) (w : FsWrite)
    (hc : s.credentials = some c)
    (he : isTokenExpired s now = false) :
    getAuthHeaders s now resp w = ⟨none, s, some (mkHeaders c), 0⟩ := by
  rw [getAuthHeaders, hc]
  simp [he]

/-- C4: with a cached credential expiring at `exp`, `getAuthHeaders`
triggers a refresh exactly when `now >= exp - 5min`: at
`now = exp - 4min` exactly one refresh happens and at
`now = exp - 6min` none; in either case the returned map is exactly
the bearer token, the syncId and the userId (of the refreshed
credential in the first case). -/
theorem c4_get_auth_headers (s : AuthState) (c : AuthCredentials)
    (rid atk uid0 jwt sid : String) (exp : Int)
    (at' : String) (ei : Int) (uid : String) (w : FsWrite)
    (hc : s.credentials = some c)
    (hrid : c.requestId = some rid) (hatk : c.authToken = some atk)
    (hjwt : c.jwtToken = some jwt) (hexp : c.jwtExpiry = some exp)
    (hsid : c.syncId = some sid) (huid : c.userId = some uid0) :
    (∀ now resp' w', ((getAuthHeaders s now resp' w').refreshes = 1 ↔
        now ≥ exp - 5 * 60 * 1000) ∧
      (getAuthHeaders s now resp' w').refreshes ≤ 1) ∧
    ((getAuthHeaders s (exp - 4 * 60 * 1000) (.ok at' ei uid) w).refreshes = 1 ∧
     (getAuthHeaders s (exp - 4 * 60 * 1000) (.ok at' ei uid) w).error = none ∧
     (getAuthHeaders s (exp - 4 * 60 * 1000) (.ok at' ei uid) w).headers =
       some [("authorization", some ("Bearer " ++ at')),
             ("x-sync-id", some (sha256Hex (rid ++ atk))),
             ("x-user-id", some uid)]) ∧
    ((getAuthHeaders s (exp - 6 * 60 * 1000) (.ok at' ei uid) w).refreshes = 0 ∧
     (getAuthHeaders s (exp - 6 * 60 * 1000) (.ok at' ei uid) w).error = none ∧
     (getAuthHeaders s (exp - 6 * 60 * 1000) (.ok at' ei uid) w).headers =
       some [("authorization", some ("Bearer " ++ jwt)),
             ("x-sync-id", some sid),
             ("x-user-id", some uid0)]) := by
  have hexpB : ∀ now : Int, isTokenExpired s now = true ↔
      now ≥ exp - 5 * 60 * 1000 := by
    intro now
    by_cases hge : now ≥ exp - 5 * 60 * 1000
    · simp [isTokenExpired, hc, hexp, hge]
    · simp [isTokenExpired, hc, hexp, hge]
  refine ⟨?_, ?_, ?_⟩
  · intro now resp' w'
    rw [getAuthHeaders_refreshes s c now resp' w' hc]
    by_cases hge : now ≥ exp - 5 * 60 * 1000
    · have ht := (hexpB now).mpr hge
      simp [ht, hge]
      omega
    · have hf : isTokenExpired s now = false := by
        cases hb : isTokenExpired s now
        · rfl
        · exact absurd ((hexpB now).mp hb) hge
      simp [hf, hge]
      omega
  · have hge : exp - 4 * 60 * 1000 ≥ exp - 5 * 60 * 1000 := by omega
    have he : isTokenExpired s (exp - 4 * 60 * 1000) = true := (hexpB _).mpr hge
    rw [getAuthHeaders_expired s c rid atk _ at' ei uid w hc hrid hatk he]
    refine ⟨rfl, rfl, ?_⟩
    simp [mkHeaders, buildCredentials, jsTemplate]
  · have hge : ¬ exp - 6 * 60 * 1000 ≥ exp - 5 * 60 * 1000 := by omega
    have he : isTokenExpired s (exp - 6 * 60 * 1000) = false := by
      cases hb : isTokenExpired s (exp - 6 * 60 * 1000)
      · rfl
      · exact absurd ((hexpB _).mp hb) hge
    rw [getAuthHeaders_fresh s c _ _ w hc he]
    refine ⟨rfl, rfl, ?_⟩
    simp [mkHeaders, hjwt, hsid, huid, jsTemplate]

theorem c4_get_auth_headers_witness :
    (getAuthHeaders ⟨some (buildCredentials "r" "t" "j" 600 "u" 0), none⟩
        (600000 - 4 * 60 * 1000) (.ok "j2" 600 "u") .ok).refreshes = 1 ∧
    (getAuthHeaders ⟨some (buildCredentials "r" "t" "j" 600 "u" 0), none⟩
        (600000 - 6 * 60 * 1000) (.ok "j2" 600 "u") .ok).refreshes = 0 := by
  have h := c4_get_auth_headers
    ⟨some (buildCredentials "r" "t" "j" 600 "u" 0), none⟩
    (buildCredentials "r" "t" "j" 600 "u" 0)
    "r" "t" "u" "j" (sha256Hex ("r" ++ "t")) 600000
    "j2" 600 "u" .ok rfl rfl rfl rfl (by decide) rfl rfl
  exact ⟨h.2.1.1, h.2.2.1⟩

theorem clearSession_eq (s : AuthState) :
    clearSession s = (none, ⟨none, none⟩) := by
  obtain ⟨cr, dk⟩ := s
  cases dk <;> rfl

/-- C8 counterexample: starting from an authenticated state, the first
call of the exposed `mcp_logout` tool succeeds and clears the session,
and the immediately following second call throws (the tool asks
`getAuthHeaders` for headers first, which fails with the
not-authenticated error once the credentials are gone). -/
theorem c8_counterexample :
    (logoutTool ⟨some (buildCredentials "rid" "tok" "jwt" 3600 "uid" 0), none⟩
        0 (.ok "jwt2" 3600 "uid") .ok .ok).1 = none ∧
    (logoutTool ⟨some (buildCredentials "rid" "tok" "jwt" 3600 "uid" 0), none⟩
        0 (.ok "jwt2" 3600 "uid") .ok .ok).2 = ⟨none, none⟩ ∧
    (logoutTool
        (logoutTool ⟨some (buildCredentials "rid" "tok" "jwt" 3600 "uid" 0), none⟩
          0 (.ok "jwt2" 3600 "uid") .ok .ok).2
        0 (.ok "jwt2" 3600 "uid") .ok .ok).1 =
      some AuthError.notAuthenticated := by
  refine ⟨?_, ?_, ?_⟩ <;> decide

/-- C8 amended: `clearSession` itself deletes the credentials from
memory and from the cache file, never errors (also when nothing was
stored) and is idempotent; but the exposed `mcp_logout` tool is not
idempotent: run against a cleared session it always throws the
not-authenticated error, so calling it twice in a row errors the
second time. -/
theorem c8_clear_session_idempotent (s : AuthState) (now : Int)
    (resp : ExchangeOutcome) (w : FsWrite) (net : NetOutcome) :
    (clearSession s).1 = none ∧
    (clearSession s).2 = ⟨none, none⟩ ∧
    clearSession (clearSession s).2 = clearSession s ∧
    (logoutTool ⟨none, none⟩ now resp w net).1 =
      some AuthError.notAuthenticated := by
  refine ⟨?_, ?_, ?_, ?_⟩
  · rw [clearSession_eq]
  · rw [clearSession_eq]
  · rw [clearSession_eq s, clearSession_eq]
  · simp [logoutTool, getAuthHeaders]

theorem credComplete_build (rid tok at' : String) (ei : Int) (uid : String)
    (now : Int) :
    credComplete (buildCredentials rid tok at' ei uid now) = true := rfl

theorem stateInv_split {s : AuthState} (h : stateInv s = true) :
    credOptComplete s.credentials = true ∧ diskOptComplete s.disk = true := by
  have h' := h
  simp only [stateInv, Bool.and_eq_true] at h'
  exact h'

theorem stateInv_save (s : AuthState) (w : FsWrite) (h : stateInv s = true) :
    stateInv (saveCachedCredentials s w) = true := by
  rcases hc : s.credentials with _ | c
  · simp [saveCachedCredentials, hc]
    exact h
  · cases w
    · have hcc : credComplete c = true := by
        have h1 := (stateInv_split h).1
        simpa [credOptComplete, hc] using h1
      simp [saveCachedCredentials, hc, stateInv, credOptComplete,
        diskOptComplete, hcc]
    · simp [saveCachedCredentials, hc]
      exact h

theorem stateInv_auth (s : AuthState) (rid tok : String)
    (resp : ExchangeOutcome) (w : FsWrite) (now : Int)
    (h : stateInv s = true) :
    stateInv (authenticateWithToken s rid tok resp w now).2 = true := by
  cases resp with
  | err => exact h
  | ok a ei u =>
    apply stateInv_save
    have hd : diskOptComplete s.disk = true := (stateInv_split h).2
    simp [stateInv, credOptComplete, credComplete_build, hd]

theorem stateInv_refresh (s : AuthState) (resp : ExchangeOutcome)
    (w : FsWrite) (now : Int) (h : stateInv s = true) :
    stateInv (refreshToken s resp w now).2 = true := by
  rcases hc : s.credentials with _ | c
  · simp [refreshToken, hc]
    exact h
  · rcases hr : c.requestId with _ | rid
    · simp [refreshToken, hc, hr]
      exact h
    · rcases ht : c.authToken with _ | tok
      · simp [refreshToken, hc, hr, ht]
        exact h
      · have ha := stateInv_auth s rid tok resp w now h
        rcases hab : authenticateWithToken s rid tok resp w now with ⟨e, s'⟩
        rw [hab] at ha
        cases e <;> simp [refreshToken, hc, hr, ht, hab] <;> exact ha

theorem stateInv_getHeaders (s : AuthState) (now : Int)
    (resp : ExchangeOutcome) (w : FsWrite) (h : stateInv s = true) :
    stateInv (getAuthHeaders s now resp w).state = true := by
  rcases hc : s.credentials with _ | c
  · simp [getAuthHeaders, hc]
    exact h
  · cases he : isTokenExpired s now
    · simp [getAuthHeaders, hc, he]
      exact h
    · have hr := stateInv_refresh s resp w now h
      rcases hab : refreshToken s resp w now with ⟨e, s'⟩
      rw [hab] at hr
      cases e <;> simp [getAuthHeaders, hc, he, hab] <;> exact hr

theorem stateInv_load (s : AuthState) (h : stateInv s = true) :
    stateInv (loadCachedCredentials s).2 = true := by
  rcases hd : s.disk with _ | d
  · simp [loadCachedCredentials, readCacheFile, hd]
    exact h
  · cases d with
    | json c =>
      have hcc : credComplete c = true := by
        have h2 := (stateInv_split h).2
        simpa [diskOptComplete, hd] using h2
      simp [loadCachedCredentials, readCacheFile, hd, stateInv,
        credOptComplete, diskOptComplete, hcc]
    | unreadable =>
      simp [loadCachedCredentials, readCacheFile, hd]
      exact h

theorem stateInv_step (s : AuthState) (op : AuthOp)
    (h : stateInv s = true) : stateInv (stepOp s op) = true := by
  cases op with
  | load => exact stateInv_load s h
  | login => exact h
  | completeLogin rid tok resp w now => exact stateInv_auth s rid tok resp w now h
  | getHeaders now resp w => exact stateInv_getHeaders s now resp w h
  | refresh resp w now => exact stateInv_refresh s resp w now h
  | clear =>
    show stateInv (clearSession s).2 = true
    rw [clearSession_eq]
    rfl
  | restart =>
    have hd : diskOptComplete s.disk = true := (stateInv_split h).2
    simp [stepOp, stateInv, credOptComplete, hd]

theorem stateInv_runOps (ops : List AuthOp) :
    ∀ s, stateInv s = true → stateInv (runOps s ops) = true := by
  induction ops with
  | nil => intro s h; exact h
  | cons op rest ih =>
    intro s h
    exact ih (stepOp s op) (stateInv_step s op h)

/-- C5: in every state reachable from a fresh install by any sequence
of load, login, completeLogin, getAuthHeaders, refresh, clearSession
and process restarts, the in-memory credentials and the persisted
cache record are each either entirely absent or a record with every
field (userId, bearer token, bearer expiry, syncId and the renewal
material) populated; no partially populated record is ever held or
persisted. -/
theorem c5_credentials_all_or_nothing (ops : List AuthOp) :
    stateInv (runOps initialState ops) = true :=
  stateInv_runOps ops initialState rfl
